import Mathlib

set_option maxRecDepth 8000

/-
Verification of the segment phase-offset estimator and mosaicker in
src/insar_analysis/dhorse_merge_segments.py.

Modelling conventions for the shallow embedding:
- numpy float arrays are embedded as rectangular `List (List ℚ)` values
  (rows of pixels); float arithmetic is modelled as exact rational
  arithmetic.
- `np.pi` is embedded as the exact rational value of the IEEE-754 double
  3.141592653589793 (namely 884279719003555 / 2^48); `2*np.pi` is its
  exact double.
- `np.nan` never enters the rational carrier: `np.where(mask, x, nan)`
  followed by `np.nanmedian` is embedded by collecting exactly the values
  at mask-true pixels; a pixel that the script sets to NaN is embedded as
  `none` in a `List (List (Option ℚ))` raster.
- a Python exception (IndexError on list indexing, ValueError from
  `int(nan)` or from a numpy shape mismatch) is embedded as
  `Except.error`.
- default keyword arguments of the Python functions are passed explicitly
  at every call site (N=400, M=400, coh_thr=0.7, rtol=1e-5, atol as
  given, scheme given).
-/

namespace SARMerge

/-- Decidable equality of embedded fallible results, so that concrete runs
of the embedded functions can be checked by evaluation. -/
instance {ε α : Type} [DecidableEq ε] [DecidableEq α] : DecidableEq (Except ε α) := fun a b =>
  match a, b with
  | Except.error e, Except.error f =>
    if h : e = f then isTrue (by rw [h]) else isFalse (by intro hc; injection hc; exact h (by assumption))
  | Except.error _, Except.ok _ => isFalse (by intro hc; exact Except.noConfusion hc)
  | Except.ok _, Except.error _ => isFalse (by intro hc; exact Except.noConfusion hc)
  | Except.ok x, Except.ok y =>
    if h : x = y then isTrue (by rw [h]) else isFalse (by intro hc; injection hc; exact h (by assumption))

/-- Exact rational value of the IEEE-754 double closest to π, the value of
np.pi: 884279719003555 / 2^48. -/
def piQ : ℚ := 884279719003555 / 281474976710656

/-- The value 2*np.pi used throughout the script (doubling a binary float
is exact, so this is the exact value of the float 2*np.pi). -/
def twoPi : ℚ := 2 * piQ

/-- np.round followed by int(): round to the nearest integer, ties going
to the nearest even integer (numpy banker's rounding). -/
def roundHalfEven (q : ℚ) : ℤ :=
  if q - ⌊q⌋ < 1/2 then ⌊q⌋
  else if 1/2 < q - ⌊q⌋ then ⌊q⌋ + 1
  else if ⌊q⌋ % 2 = 0 then ⌊q⌋ else ⌊q⌋ + 1

/-- Median of a list of rationals as numpy computes it on the non-NaN
values: sort ascending, take the middle element (odd length) or the mean
of the two middle elements (even length). Only used on nonempty lists. -/
def median (l : List ℚ) : ℚ :=
  let s := List.insertionSort (fun a b => a ≤ b) l
  if l.length % 2 = 1 then s.getD (l.length / 2) 0
  else (s.getD (l.length / 2 - 1) 0 + s.getD (l.length / 2) 0) / 2

/-- The slice a[-N:, :M] of a 2-D array. In Python -0 is 0, so N = 0
keeps every row. -/
def sliceTail (N M : ℕ) (a : List (List ℚ)) : List (List ℚ) :=
  (if N = 0 then a else a.drop (a.length - N)).map (List.take M)

/-- The slice a[:N, :M] of a 2-D array. -/
def sliceHead (N M : ℕ) (a : List (List ℚ)) : List (List ℚ) :=
  (a.take N).map (List.take M)

/-- All aligned pixel pairs of two 2-D arrays, row-major (the elementwise
pairing underlying numpy binary operations on same-shaped arrays). -/
def pixelPairs (a b : List (List ℚ)) : List (ℚ × ℚ) :=
  ((a.zip b).map (fun rp => rp.1.zip rp.2)).flatten

/-- The list of values of diff = np.where(mask, phi_n - phi_s, nan) at the
pixels where mask = (coh_n > coh_thr) & (coh_s > coh_thr) holds, row-major.
np.nanmedian of diff is the median of exactly this list (NaN entries are
ignored), and it is empty exactly when the median is undefined (all-NaN). -/
def validDiffs (phi_n phi_s coh_n coh_s : List (List ℚ)) (thr : ℚ) : List ℚ :=
  (((phi_n.zip phi_s).zip (coh_n.zip coh_s)).map (fun rp =>
      ((rp.1.1.zip rp.1.2).zip (rp.2.1.zip rp.2.2)).filterMap (fun pc =>
        if thr < pc.2.1 ∧ thr < pc.2.2 then some (pc.1.1 - pc.1.2) else none))).flatten

/-- estimate_boundary_n from dhorse_merge_segments.py (lines 12-29).
Slices the trailing N rows of the north segment and the leading N rows of
the south segment, both restricted to the first M columns, gates them by
coherence, and returns int(np.round(nanmedian(diff) / (2*np.pi))).
When no pixel passes the gate, nanmedian returns NaN and int(np.round(nan))
raises ValueError in Python; this is embedded as `Except.error`. -/
def estimate_boundary_n (phi_north coh_north phi_south coh_south : List (List ℚ))
    (N M : ℕ) (coh_thr : ℚ) : Except String ℤ :=
  let phi_n := sliceTail N M phi_north
  let phi_s := sliceHead N M phi_south
  let coh_n := sliceTail N M coh_north
  let coh_s := sliceHead N M coh_south
  let diffs := validDiffs phi_n phi_s coh_n coh_s coh_thr
  if diffs.isEmpty then
    Except.error "cannot convert float NaN to integer"
  else
    Except.ok (roundHalfEven (median diffs / twoPi))

/-- Python list indexing l[i]: returns the element or raises IndexError. -/
def getSeg {α : Type} (l : List α) (i : ℕ) : Except String α :=
  match l[i]? with
  | some a => Except.ok a
  | none => Except.error "IndexError: list index out of range"

/-- estimate_segment_offsets from dhorse_merge_segments.py (lines 32-46).
Indexes phi_list[0..3] and coh_list[0..3] (IndexError if a list is
shorter), estimates the three pairwise boundary offsets with the default
arguments N=400, M=400, coh_thr=0.7, and folds c1 = 0, c2 = c1 - n12,
c3 = c2 - n23, c4 = c3 - n34. -/
def estimate_segment_offsets (phi_list coh_list : List (List (List ℚ))) :
    Except String (List ℤ) := do
  let n12 ← estimate_boundary_n (← getSeg phi_list 0) (← getSeg coh_list 0)
      (← getSeg phi_list 1) (← getSeg coh_list 1) 400 400 (7/10)
  let n23 ← estimate_boundary_n (← getSeg phi_list 1) (← getSeg coh_list 1)
      (← getSeg phi_list 2) (← getSeg coh_list 2) 400 400 (7/10)
  let n34 ← estimate_boundary_n (← getSeg phi_list 2) (← getSeg coh_list 2)
      (← getSeg phi_list 3) (← getSeg coh_list 3) 400 400 (7/10)
  let c1 : ℤ := 0
  let c2 := c1 - n12
  let c3 := c2 - n23
  let c4 := c3 - n34
  return [c1, c2, c3, c4]

/-- phi_corr from dhorse_merge_segments.py (line 177):
[phi - ci * 2*np.pi for phi, ci in zip(phi_list, c)], per-pixel. -/
def phi_corr (phi_list : List (List (List ℚ))) (c : List ℤ) :
    List (List (List ℚ)) :=
  (phi_list.zip c).map (fun pc => pc.1.map (List.map (fun x => x - (pc.2 : ℚ) * twoPi)))

/-- Whether all rows of all stacked arrays share one width (the shape
check np.vstack performs on its column axis; rectangular inputs). -/
def sameWidths (l : List (List (List ℚ))) : Bool :=
  match l.flatten with
  | [] => true
  | r :: rs => rs.all (fun x => x.length == r.length)

/-- np.vstack: concatenates 2-D arrays along the row axis; raises
ValueError when the column counts do not match. -/
def vstackChecked (l : List (List (List ℚ))) : Except String (List (List ℚ)) :=
  if sameWidths l then Except.ok l.flatten
  else Except.error "ValueError: all the input array dimensions must match"

/-- np.isclose(a, b, rtol, atol) for scalars: |a - b| <= atol + rtol*|b|.
The script calls it with b = 0.0, rtol left at its default 1e-5 and
atol = 1e-3. -/
def isclose (a b rtol atol : ℚ) : Bool :=
  decide (|a - b| ≤ atol + rtol * |b|)

/-- mask from dhorse_merge_segments.py (line 182):
np.where(np.isclose(mosaic_int_amp, 0.0, atol=1e-3), False, True). -/
def ampMask (amp : List (List ℚ)) : List (List Bool) :=
  amp.map (List.map (fun a => !(isclose a 0 (1/100000) (1/1000))))

/-- np.where(mask, arr, np.nan) on same-shaped arrays; `none` embeds NaN. -/
def whereMask (mask : List (List Bool)) (arr : List (List ℚ)) :
    List (List (Option ℚ)) :=
  (mask.zip arr).map (fun p => (p.1.zip p.2).map (fun q => if q.1 then some q.2 else none))

/-- np.where(mask, arr, np.nan) including the shape compatibility check
numpy performs (restricted to the equal-shape case the script uses; a
shape mismatch raises ValueError). -/
def whereChecked (mask : List (List Bool)) (arr : List (List ℚ)) :
    Except String (List (List (Option ℚ))) :=
  if mask.map List.length = arr.map List.length then Except.ok (whereMask mask arr)
  else Except.error "ValueError: operands could not be broadcast together"

/-- np.stack([a, b]) on two 2-D arrays: a 3-D array of the two bands;
raises ValueError when shapes differ. -/
def stack2Checked (a b : List (List (Option ℚ))) :
    Except String (List (List (List (Option ℚ)))) :=
  if a.map List.length = b.map List.length then Except.ok [a, b]
  else Except.error "ValueError: all input arrays must have the same shape"

/-- Observable events of one per-pair pass of the main loop: writing one
named output product, or surfacing a fatal Python exception. -/
inductive Ev where
  | write : String → Ev
  | fatal : String → Ev
deriving DecidableEq

/-- The per-pair body of the main loop of dhorse_merge_segments.py
(lines 170-196), as the ordered trace of output writes and the first
fatal exception, in the statement order of the script: estimate offsets,
correct and vstack phase, vstack amplitude, build the amplitude mask,
mask phase then amplitude, stack the two bands, write the .unw product,
vstack coherence, write the .cor product, vstack conncomp, write the
.conncomp product. A raised exception aborts the pass immediately. -/
def process_pair (phi_list int_amp_list coh_list conncomp_list :
    List (List (List ℚ))) : List Ev :=
  match estimate_segment_offsets phi_list coh_list with
  | Except.error e => [Ev.fatal e]
  | Except.ok c =>
    match vstackChecked (phi_corr phi_list c) with
    | Except.error e => [Ev.fatal e]
    | Except.ok mosaic_unw =>
      match vstackChecked int_amp_list with
      | Except.error e => [Ev.fatal e]
      | Except.ok mosaic_int_amp =>
        match whereChecked (ampMask mosaic_int_amp) mosaic_unw with
        | Except.error e => [Ev.fatal e]
        | Except.ok unw_masked =>
          match whereChecked (ampMask mosaic_int_amp) mosaic_int_amp with
          | Except.error e => [Ev.fatal e]
          | Except.ok amp_masked =>
            match stack2Checked amp_masked unw_masked with
            | Except.error e => [Ev.fatal e]
            | Except.ok _twoband =>
              Ev.write "filt_snaphu.unw" ::
              match vstackChecked coh_list with
              | Except.error e => [Ev.fatal e]
              | Except.ok _mosaic_coh =>
                Ev.write "filt.cor" ::
                match vstackChecked conncomp_list with
                | Except.error e => [Ev.fatal e]
                | Except.ok _mosaic_conncomp => [Ev.write "filt_snaphu.unw.conncomp"]

/-- Row index in a vertically stacked mosaic at which segment i starts:
the total row count of the segments before it. -/
def rowStart {α : Type} (L : List (List α)) (i : ℕ) : ℕ :=
  ((L.take i).map List.length).sum

/-- np.concatenate(segs, axis=1) on 3-D (bands, rows, cols) arrays:
per band, the rows of all segments concatenated in order (used for the
two-band line-of-sight geometry product). -/
def concatAxis1 (segs : List (List (List (List ℚ)))) : List (List (List ℚ)) :=
  (List.range (segs.headD []).length).map
    (fun b => (segs.map (fun s => s.getD b [])).flatten)

/-- numpy dtypes relevant to the script. -/
inductive DType where
  | float32 | float64 | int16 | int32 | uint8
deriving DecidableEq

/-- A 1-D, 2-D or 3-D numpy array (values carried as rationals). -/
inductive NDArr where
  | d1 : List ℚ → NDArr
  | d2 : List (List ℚ) → NDArr
  | d3 : List (List (List ℚ)) → NDArr
deriving DecidableEq

/-- A numpy array together with its storage dtype. -/
structure TypedArr where
  dtype : DType
  data : NDArr
deriving DecidableEq

/-- np.transpose(arr, (1, 0, 2)) on a (bands, length, width) array:
result[l][b][w] = arr[b][l][w]. -/
def transpose102 (a : List (List (List ℚ))) : List (List (List ℚ)) :=
  (List.range (a.headD []).length).map (fun l => a.map (fun band => band.getD l []))

/-- write_isce_image from dhorse_merge_segments.py (lines 82-113),
restricted to the array it dumps to disk (arr_out): a 2-D array is cast
to float32 unchanged; a 3-D array is cast to float32 after a (1,0,2)
transpose for scheme BIL, or unchanged for BSQ; any other scheme or
dimensionality raises ValueError. astype(np.float32) is modelled as
retagging the storage dtype; the binary32 rounding of individual values
is not modelled (the claims concern the storage type). Sidecar XML/VRT
metadata emission is not modelled. -/
def write_isce_image (t : TypedArr) (scheme : String) : Except String TypedArr :=
  match t.data with
  | NDArr.d2 m => Except.ok ⟨DType.float32, NDArr.d2 m⟩
  | NDArr.d3 a =>
    if scheme.toUpper = "BIL" then Except.ok ⟨DType.float32, NDArr.d3 (transpose102 a)⟩
    else if scheme.toUpper = "BSQ" then Except.ok ⟨DType.float32, NDArr.d3 a⟩
    else Except.error "scheme must be BIL or BSQ"
  | NDArr.d1 _ => Except.error "arr must be 2D or 3D"

/-! Helper lemmas about the embedded operations. -/

theorem twoPi_ne_zero : twoPi ≠ 0 := by
  unfold twoPi piQ; norm_num

theorem coh_thr_lt : (7/10 : ℚ) < 9/10 := by norm_num

theorem except_bind_ok {ε α β : Type} (a : α) (f : α → Except ε β) :
    (Except.ok a : Except ε α) >>= f = f a := rfl

theorem except_bind_err {ε α β : Type} (e : ε) (f : α → Except ε β) :
    (Except.error e : Except ε α) >>= f = Except.error e := rfl

theorem except_bind_inv {ε α β : Type} {m : Except ε α} {f : α → Except ε β} {b : β}
    (h : m >>= f = Except.ok b) : ∃ a, m = Except.ok a ∧ f a = Except.ok b := by
  cases m with
  | error e => exact absurd h (by intro hc; exact Except.noConfusion hc)
  | ok a => exact ⟨a, rfl, h⟩

theorem roundHalfEven_intCast (k : ℤ) : roundHalfEven (k : ℚ) = k := by
  unfold roundHalfEven
  rw [Int.floor_intCast]
  have h : (k : ℚ) - k = 0 := by ring
  rw [h, if_pos (by norm_num)]

theorem getD_of_all_eq {l : List ℚ} {v : ℚ} (h : ∀ x ∈ l, x = v) {i : ℕ}
    (hi : i < l.length) : l.getD i 0 = v := by
  rw [List.getD_eq_getElem l 0 hi]
  exact h _ (List.getElem_mem hi)

theorem median_const {l : List ℚ} {v : ℚ} (hne : l ≠ []) (h : ∀ x ∈ l, x = v) :
    median l = v := by
  unfold median
  have hperm : (List.insertionSort (fun a b => a ≤ b) l).Perm l :=
    List.perm_insertionSort _ l
  have hlen : (List.insertionSort (fun a b => a ≤ b) l).length = l.length :=
    hperm.length_eq
  have hmem : ∀ x ∈ List.insertionSort (fun a b => a ≤ b) l, x = v :=
    fun x hx => h x (hperm.mem_iff.mp hx)
  have hpos : 0 < l.length := List.length_pos.mpr hne
  by_cases hpar : l.length % 2 = 1
  · rw [if_pos hpar]
    exact getD_of_all_eq hmem (by rw [hlen]; exact Nat.div_lt_self hpos (by norm_num))
  · rw [if_neg hpar]
    have h2 : 2 ≤ l.length := by omega
    have ha : (List.insertionSort (fun a b => a ≤ b) l).getD (l.length / 2 - 1) 0 = v :=
      getD_of_all_eq hmem (by
        rw [hlen]
        calc l.length / 2 - 1 ≤ l.length / 2 := Nat.sub_le _ _
        _ < l.length := Nat.div_lt_self hpos (by norm_num))
    have hb : (List.insertionSort (fun a b => a ≤ b) l).getD (l.length / 2) 0 = v :=
      getD_of_all_eq hmem (by rw [hlen]; exact Nat.div_lt_self hpos (by norm_num))
    rw [ha, hb]
    ring

theorem mem_validDiffs {pn ps cn cs : List (List ℚ)} {thr d : ℚ}
    (h : d ∈ validDiffs pn ps cn cs thr) :
    ∃ p q, p ∈ pixelPairs pn ps ∧ q ∈ pixelPairs cn cs ∧
      d = p.1 - p.2 ∧ thr < q.1 ∧ thr < q.2 := by
  unfold validDiffs at h
  rw [List.mem_flatten] at h
  obtain ⟨row, hrow, hd⟩ := h
  rw [List.mem_map] at hrow
  obtain ⟨rp, hrp, rfl⟩ := hrow
  rw [List.mem_filterMap] at hd
  obtain ⟨pc, hpc, heq⟩ := hd
  obtain ⟨⟨u, w⟩, ⟨x, y⟩⟩ := pc
  by_cases hcond : thr < x ∧ thr < y
  · rw [if_pos hcond] at heq
    obtain ⟨hrow1, hrow2⟩ := List.of_mem_zip hrp
    obtain ⟨hpix1, hpix2⟩ := List.of_mem_zip hpc
    refine ⟨(u, w), (x, y), ?_, ?_, (Option.some.inj heq).symm, hcond.1, hcond.2⟩
    · unfold pixelPairs
      rw [List.mem_flatten]
      exact ⟨rp.1.1.zip rp.1.2, List.mem_map.mpr ⟨rp.1, hrow1, rfl⟩, hpix1⟩
    · unfold pixelPairs
      rw [List.mem_flatten]
      exact ⟨rp.2.1.zip rp.2.2, List.mem_map.mpr ⟨rp.2, hrow2, rfl⟩, hpix2⟩
  · rw [if_neg hcond] at heq
    exact absurd heq (by intro hc; exact Option.noConfusion hc)

theorem validDiffs_nil (pn ps : List (List ℚ)) {cn cs : List (List ℚ)} {thr : ℚ}
    (h : ∀ q ∈ pixelPairs cn cs, ¬(thr < q.1 ∧ thr < q.2)) :
    validDiffs pn ps cn cs thr = [] := by
  rw [List.eq_nil_iff_forall_not_mem]
  intro d hd
  obtain ⟨p, q, _, hq, _, hq1, hq2⟩ := mem_validDiffs hd
  exact h q hq ⟨hq1, hq2⟩

/-- Evaluation of the boundary estimator on a pair of 1x1 segments with
coherence 0.9 (above the 0.7 threshold): numpy slicing a[-400:, :400] and
a[:400, :400] keeps the whole 1x1 array, so the gated diff list is the
single value a - b and the estimator returns round((a - b) / 2pi). -/
theorem boundary_single (a b : ℚ) (k : ℤ) (h : a - b = (k : ℚ) * twoPi) :
    estimate_boundary_n [[a]] [[9/10]] [[b]] [[9/10]] 400 400 (7/10) = Except.ok k := by
  have t1 : sliceTail 400 400 [[a]] = [[a]] := rfl
  have t2 : sliceHead 400 400 [[b]] = [[b]] := rfl
  have t3 : sliceTail 400 400 [[(9/10 : ℚ)]] = [[9/10]] := rfl
  have t4 : sliceHead 400 400 [[(9/10 : ℚ)]] = [[9/10]] := rfl
  have e5 : validDiffs (sliceTail 400 400 [[a]]) (sliceHead 400 400 [[b]])
      (sliceTail 400 400 [[9/10]]) (sliceHead 400 400 [[9/10]]) (7/10) = [a - b] := by
    rw [t1, t2, t3, t4]
    simp [validDiffs, coh_thr_lt]
  have e7 : median [a - b] = a - b := by simp [median]
  simp only [estimate_boundary_n, e5, List.isEmpty_cons, Bool.false_eq_true, if_false]
  rw [e7, h, mul_div_assoc, div_self twoPi_ne_zero, mul_one, roundHalfEven_intCast]

/-- C1: for every pair of adjacent segments whose boundary regions (the
trailing N rows of the upper segment and the leading N rows of the lower
segment, restricted to the first M columns) satisfy
phi_upper - phi_lower = n_true * 2pi at every pixel for some integer
n_true, and whose coherence exceeds the threshold at every pixel of both
boundary slices, estimate_boundary_n returns exactly n_true. The gated
boundary region is assumed to contain at least one pixel (hne); with the
uniform-coherence hypothesis this is just nonemptiness of the boundary
overlap, which the claim's synthetic-segment scenario presupposes. -/
theorem claim_C1_boundary_recovers_injected_offset
    (phi_north coh_north phi_south coh_south : List (List ℚ))
    (N M : ℕ) (coh_thr : ℚ) (n_true : ℤ)
    (hdiff : ∀ p ∈ pixelPairs (sliceTail N M phi_north) (sliceHead N M phi_south),
      p.1 - p.2 = (n_true : ℚ) * twoPi)
    (hcohN : ∀ row ∈ sliceTail N M coh_north, ∀ c ∈ row, coh_thr < c)
    (hcohS : ∀ row ∈ sliceHead N M coh_south, ∀ c ∈ row, coh_thr < c)
    (hne : validDiffs (sliceTail N M phi_north) (sliceHead N M phi_south)
      (sliceTail N M coh_north) (sliceHead N M coh_south) coh_thr ≠ []) :
    estimate_boundary_n phi_north coh_north phi_south coh_south N M coh_thr
      = Except.ok n_true := by
  have hconst : ∀ d ∈ validDiffs (sliceTail N M phi_north) (sliceHead N M phi_south)
      (sliceTail N M coh_north) (sliceHead N M coh_south) coh_thr,
      d = (n_true : ℚ) * twoPi := by
    intro d hd
    obtain ⟨p, q, hp, hq, rfl, _, _⟩ := mem_validDiffs hd
    exact hdiff p hp
  have hmed := median_const hne hconst
  simp only [estimate_boundary_n]
  rw [if_neg (by simpa [List.isEmpty_iff] using hne), hmed, mul_div_assoc,
    div_self twoPi_ne_zero, mul_one, roundHalfEven_intCast]

/-- C1 witness: two 1x1 segments with an injected offset of exactly one
cycle (phi_north = 2pi, phi_south = 0) and coherence 0.9 everywhere; the
estimator recovers n = 1. -/
theorem claim_C1_witness :
    estimate_boundary_n [[twoPi]] [[9/10]] [[0]] [[9/10]] 400 400 (7/10)
      = Except.ok 1 := by
  refine claim_C1_boundary_recovers_injected_offset
    [[twoPi]] [[9/10]] [[0]] [[9/10]] 400 400 (7/10) 1 ?_ ?_ ?_ ?_
  · intro p hp
    have e : pixelPairs (sliceTail 400 400 [[twoPi]]) (sliceHead 400 400 [[0]])
        = [(twoPi, (0 : ℚ))] := rfl
    rw [e, List.mem_singleton] at hp
    subst hp
    simp
  · intro row hrow c hc
    have e : sliceTail 400 400 [[(9/10 : ℚ)]] = [[9/10]] := rfl
    rw [e, List.mem_singleton] at hrow
    subst hrow
    rw [List.mem_singleton] at hc
    subst hc
    exact coh_thr_lt
  · intro row hrow c hc
    have e : sliceHead 400 400 [[(9/10 : ℚ)]] = [[9/10]] := rfl
    rw [e, List.mem_singleton] at hrow
    subst hrow
    rw [List.mem_singleton] at hc
    subst hc
    exact coh_thr_lt
  · have t1 : sliceTail 400 400 [[twoPi]] = [[twoPi]] := rfl
    have t2 : sliceHead 400 400 [[(0 : ℚ)]] = [[0]] := rfl
    have t3 : sliceTail 400 400 [[(9/10 : ℚ)]] = [[9/10]] := rfl
    have t4 : sliceHead 400 400 [[(9/10 : ℚ)]] = [[9/10]] := rfl
    have e : validDiffs (sliceTail 400 400 [[twoPi]]) (sliceHead 400 400 [[0]])
        (sliceTail 400 400 [[9/10]]) (sliceHead 400 400 [[9/10]]) (7/10)
        = [twoPi] := by
      rw [t1, t2, t3, t4]
      simp [validDiffs, coh_thr_lt]
    rw [e]
    simp

/-- C3: when no pixel of the boundary region passes the coherence gate,
every diff pixel is NaN, np.nanmedian returns NaN, and
int(np.round(nan)) raises ValueError: the estimator surfaces a fatal
undefined-offset condition and in particular does not return the integer
0 (or any other integer). -/
theorem claim_C3_undefined_offset_is_fatal
    (phi_north coh_north phi_south coh_south : List (List ℚ))
    (N M : ℕ) (coh_thr : ℚ)
    (hcoh : ∀ q ∈ pixelPairs (sliceTail N M coh_north) (sliceHead N M coh_south),
      ¬(coh_thr < q.1 ∧ coh_thr < q.2)) :
    estimate_boundary_n phi_north coh_north phi_south coh_south N M coh_thr
      = Except.error "cannot convert float NaN to integer" ∧
    ∀ z : ℤ, estimate_boundary_n phi_north coh_north phi_south coh_south N M coh_thr
      ≠ Except.ok z := by
  have hnil :=
    validDiffs_nil (sliceTail N M phi_north) (sliceHead N M phi_south) hcoh
  have h1 : estimate_boundary_n phi_north coh_north phi_south coh_south N M coh_thr
      = Except.error "cannot convert float NaN to integer" := by
    simp [estimate_boundary_n, hnil]
  refine ⟨h1, fun z hz => ?_⟩
  rw [h1] at hz
  exact Except.noConfusion hz

/-- C3 witness: 1x1 segments with coherence 0.5 everywhere, below the 0.7
threshold, so no pixel passes the gate: the estimator reports the fatal
undefined-offset error. -/
theorem claim_C3_witness :
    estimate_boundary_n [[0]] [[1/2]] [[0]] [[1/2]] 400 400 (7/10)
      = Except.error "cannot convert float NaN to integer" := by
  have h := claim_C3_undefined_offset_is_fatal [[0]] [[1/2]] [[0]] [[1/2]] 400 400 (7/10)
    (by
      intro q hq
      have e : pixelPairs (sliceTail 400 400 [[(1/2 : ℚ)]]) (sliceHead 400 400 [[(1/2 : ℚ)]])
          = [((1/2 : ℚ), (1/2 : ℚ))] := rfl
      rw [e, List.mem_singleton] at hq
      subst hq
      intro hcontra
      have : ¬((7/10 : ℚ) < 1/2) := by norm_num
      exact this hcontra.1)
  exact h.1

/-- Fold evaluation of estimate_segment_offsets on four segments whose
three pairwise boundary estimates succeed. -/
theorem offsets_fold_aux
    (p1 p2 p3 p4 q1 q2 q3 q4 : List (List ℚ)) (n12 n23 n34 : ℤ)
    (h12 : estimate_boundary_n p1 q1 p2 q2 400 400 (7/10) = Except.ok n12)
    (h23 : estimate_boundary_n p2 q2 p3 q3 400 400 (7/10) = Except.ok n23)
    (h34 : estimate_boundary_n p3 q3 p4 q4 400 400 (7/10) = Except.ok n34) :
    estimate_segment_offsets [p1, p2, p3, p4] [q1, q2, q3, q4]
      = Except.ok [0, -n12, -n12 - n23, -n12 - n23 - n34] := by
  have g0 : getSeg [p1, p2, p3, p4] 0 = Except.ok p1 := rfl
  have g1 : getSeg [p1, p2, p3, p4] 1 = Except.ok p2 := rfl
  have g2 : getSeg [p1, p2, p3, p4] 2 = Except.ok p3 := rfl
  have g3 : getSeg [p1, p2, p3, p4] 3 = Except.ok p4 := rfl
  have k0 : getSeg [q1, q2, q3, q4] 0 = Except.ok q1 := rfl
  have k1 : getSeg [q1, q2, q3, q4] 1 = Except.ok q2 := rfl
  have k2 : getSeg [q1, q2, q3, q4] 2 = Except.ok q3 := rfl
  have k3 : getSeg [q1, q2, q3, q4] 3 = Except.ok q4 := rfl
  simp only [estimate_segment_offsets, g0, g1, g2, g3, k0, k1, k2, k3,
    except_bind_ok, h12, h23, h34, zero_sub, pure, Except.pure]

/-- C2 (amended): estimate_segment_offsets handles exactly the four
segments the script processes (it indexes phi_list[0..3]); whenever the
three pairwise boundary estimates succeed with offsets n12, n23, n34, it
returns the strict left-to-right fold c1 = 0, c2 = c1 - n12,
c3 = c2 - n23, c4 = c3 - n34 = [0, -n12, -n12 - n23, -n12 - n23 - n34],
with no global reconciliation. -/
theorem claim_C2_offsets_are_strict_fold
    (p1 p2 p3 p4 q1 q2 q3 q4 : List (List ℚ)) (n12 n23 n34 : ℤ)
    (h12 : estimate_boundary_n p1 q1 p2 q2 400 400 (7/10) = Except.ok n12)
    (h23 : estimate_boundary_n p2 q2 p3 q3 400 400 (7/10) = Except.ok n23)
    (h34 : estimate_boundary_n p3 q3 p4 q4 400 400 (7/10) = Except.ok n34) :
    estimate_segment_offsets [p1, p2, p3, p4] [q1, q2, q3, q4]
      = Except.ok [0, -n12, -n12 - n23, -n12 - n23 - n34] :=
  offsets_fold_aux p1 p2 p3 p4 q1 q2 q3 q4 n12 n23 n34 h12 h23 h34

/-- C2 counterexample: the claim quantifies over sequences of any length
K and in particular asserts the three-segment result [0, -1, 1]; but the
code indexes phi_list[3], so on three segments whose two boundaries carry
exactly the pairwise offsets n12 = 1 and n23 = -2 it raises IndexError
instead of returning [0, -1, 1]. -/
theorem claim_C2_counterexample :
    estimate_segment_offsets [[[twoPi]], [[0]], [[2 * twoPi]]]
        [[[9/10]], [[9/10]], [[9/10]]]
      = Except.error "IndexError: list index out of range" ∧
    estimate_segment_offsets [[[twoPi]], [[0]], [[2 * twoPi]]]
        [[[9/10]], [[9/10]], [[9/10]]]
      ≠ Except.ok [0, -1, 1] := by
  have h12 : estimate_boundary_n [[twoPi]] [[9/10]] [[0]] [[9/10]] 400 400 (7/10)
      = Except.ok 1 := boundary_single twoPi 0 1 (by simp)
  have h23 : estimate_boundary_n [[0]] [[9/10]] [[2 * twoPi]] [[9/10]] 400 400 (7/10)
      = Except.ok (-2) := boundary_single 0 (2 * twoPi) (-2) (by push_cast; ring)
  have g0 : getSeg [[[twoPi]], [[0]], [[2 * twoPi]]] 0 = Except.ok [[twoPi]] := rfl
  have g1 : getSeg [[[twoPi]], [[0]], [[2 * twoPi]]] 1 = Except.ok [[0]] := rfl
  have g2 : getSeg [[[twoPi]], [[0]], [[2 * twoPi]]] 2 = Except.ok [[2 * twoPi]] := rfl
  have g3 : getSeg [[[twoPi]], [[0]], [[2 * twoPi]]] 3
      = Except.error "IndexError: list index out of range" := rfl
  have k0 : getSeg [[[(9/10 : ℚ)]], [[9/10]], [[9/10]]] 0 = Except.ok [[9/10]] := rfl
  have k1 : getSeg [[[(9/10 : ℚ)]], [[9/10]], [[9/10]]] 1 = Except.ok [[9/10]] := rfl
  have k2 : getSeg [[[(9/10 : ℚ)]], [[9/10]], [[9/10]]] 2 = Except.ok [[9/10]] := rfl
  have hmain : estimate_segment_offsets [[[twoPi]], [[0]], [[2 * twoPi]]]
      [[[9/10]], [[9/10]], [[9/10]]]
      = Except.error "IndexError: list index out of range" := by
    simp only [estimate_segment_offsets, g0, g1, g2, g3, k0, k1, k2, h12, h23,
      except_bind_ok, except_bind_err]
  refine ⟨hmain, fun hc => ?_⟩
  rw [hmain] at hc
  exact Except.noConfusion hc

/-- C2 witness: four 1x1 segments realizing pairwise offsets n12 = 1,
n23 = -2, n34 = 0; the fold yields [0, -1, 1, 1], whose first three
entries are the [0, -1, 1] of the spec's three-segment example. -/
theorem claim_C2_witness :
    estimate_segment_offsets [[[twoPi]], [[0]], [[2 * twoPi]], [[2 * twoPi]]]
        [[[9/10]], [[9/10]], [[9/10]], [[9/10]]]
      = Except.ok [0, -1, 1, 1] := by
  have h := claim_C2_offsets_are_strict_fold [[twoPi]] [[0]] [[2 * twoPi]] [[2 * twoPi]]
    [[9/10]] [[9/10]] [[9/10]] [[9/10]] 1 (-2) 0
    (boundary_single twoPi 0 1 (by simp))
    (boundary_single 0 (2 * twoPi) (-2) (by push_cast; ring))
    (boundary_single (2 * twoPi) (2 * twoPi) 0 (by simp))
  exact h.trans (by decide)

/-- Pixel-level reading of phi_corr: within bounds, the corrected raster
of segment i holds phi - c(i) * 2pi at every pixel. -/
theorem phi_corr_getD (phi_list : List (List (List ℚ))) (offs : List ℤ) (i r j : ℕ)
    (hi : i < phi_list.length) (hic : i < offs.length)
    (hr : r < (phi_list.getD i []).length)
    (hj : j < ((phi_list.getD i []).getD r []).length) :
    (((phi_corr phi_list offs).getD i []).getD r []).getD j 0
      = (((phi_list.getD i []).getD r []).getD j 0) - ((offs.getD i 0 : ℤ) : ℚ) * twoPi := by
  have e0 : phi_list.getD i [] = phi_list[i] := List.getD_eq_getElem _ _ hi
  have ec : offs.getD i 0 = offs[i] := List.getD_eq_getElem _ _ hic
  have hiz : i < (phi_list.zip offs).length := by
    rw [List.length_zip]; exact lt_min hi hic
  have him : i < (phi_corr phi_list offs).length := by
    unfold phi_corr; rw [List.length_map]; exact hiz
  have e1 : (phi_corr phi_list offs).getD i []
      = phi_list[i].map (List.map (fun x => x - (offs[i] : ℚ) * twoPi)) := by
    rw [List.getD_eq_getElem _ _ him]
    unfold phi_corr
    rw [List.getElem_map, List.getElem_zip]
  rw [e0] at hr hj
  rw [e0, ec, e1]
  have hrm : r < (phi_list[i].map (List.map (fun x => x - (offs[i] : ℚ) * twoPi))).length := by
    rw [List.length_map]; exact hr
  have e2 : phi_list[i].getD r [] = phi_list[i][r] := List.getD_eq_getElem _ _ hr
  rw [e2] at hj
  rw [e2, List.getD_eq_getElem _ _ hrm, List.getElem_map]
  have hjm : j < (List.map (fun x => x - (offs[i] : ℚ) * twoPi) phi_list[i][r]).length := by
    rw [List.length_map]; exact hj
  rw [List.getD_eq_getElem _ _ hjm, List.getElem_map, List.getD_eq_getElem _ _ hj]

/-- C4: for every segment i with absolute integer offset c(i), every
in-bounds pixel of the corrected raster phi_corr equals
phi(i) - c(i) * 2pi: the same constant multiple of 2pi is subtracted from
every pixel of the segment. -/
theorem claim_C4_phase_correction_per_pixel
    (phi_list : List (List (List ℚ))) (offs : List ℤ) (i r j : ℕ)
    (hi : i < phi_list.length) (hic : i < offs.length)
    (hr : r < (phi_list.getD i []).length)
    (hj : j < ((phi_list.getD i []).getD r []).length) :
    (((phi_corr phi_list offs).getD i []).getD r []).getD j 0
      = (((phi_list.getD i []).getD r []).getD j 0) - ((offs.getD i 0 : ℤ) : ℚ) * twoPi :=
  phi_corr_getD phi_list offs i r j hi hic hr hj

/-- C4 witness: a single 1x1 segment with phase 3 and offset 2 is
corrected to 3 - 2 * 2pi. -/
theorem claim_C4_witness :
    (((phi_corr [[[3]]] [2]).getD 0 []).getD 0 []).getD 0 0
      = (((([[[(3 : ℚ)]]] : List (List (List ℚ))).getD 0 []).getD 0 []).getD 0 0)
        - ((([2].getD 0 0 : ℤ) : ℚ)) * twoPi :=
  claim_C4_phase_correction_per_pixel [[[3]]] [2] 0 0 0
    (by decide) (by decide) (by decide) (by decide)

/-- Pixel-level reading of np.where(mask, arr, nan). -/
theorem whereMask_getD (mask : List (List Bool)) (arr : List (List ℚ)) (r j : ℕ)
    (hrm : r < mask.length) (hra : r < arr.length)
    (hjm : j < (mask.getD r []).length) (hja : j < (arr.getD r []).length) :
    ((whereMask mask arr).getD r []).getD j none
      = if (mask.getD r []).getD j false then some ((arr.getD r []).getD j 0)
        else none := by
  have em : mask.getD r [] = mask[r] := List.getD_eq_getElem _ _ hrm
  have ea : arr.getD r [] = arr[r] := List.getD_eq_getElem _ _ hra
  have hrz : r < (mask.zip arr).length := by
    rw [List.length_zip]; exact lt_min hrm hra
  have hrw : r < (whereMask mask arr).length := by
    unfold whereMask; rw [List.length_map]; exact hrz
  have e1 : (whereMask mask arr).getD r []
      = (mask[r].zip arr[r]).map (fun q => if q.1 then some q.2 else none) := by
    rw [List.getD_eq_getElem _ _ hrw]
    unfold whereMask
    rw [List.getElem_map, List.getElem_zip]
  rw [em] at hjm
  rw [ea] at hja
  rw [em, ea, e1]
  have hjz : j < (mask[r].zip arr[r]).length := by
    rw [List.length_zip]; exact lt_min hjm hja
  have hjw : j < ((mask[r].zip arr[r]).map (fun q => if q.1 then some q.2 else none)).length := by
    rw [List.length_map]; exact hjz
  rw [List.getD_eq_getElem _ _ hjw, List.getElem_map, List.getElem_zip,
    List.getD_eq_getElem _ _ hjm, List.getD_eq_getElem _ _ hja]

/-- Row-level reading of the amplitude mask of line 182. -/
theorem ampMask_row (amp : List (List ℚ)) (r : ℕ) (hr : r < amp.length) :
    (ampMask amp).getD r []
      = (amp.getD r []).map (fun a => !(isclose a 0 (1/100000) (1/1000))) := by
  have hrm : r < (ampMask amp).length := by
    unfold ampMask; rw [List.length_map]; exact hr
  rw [List.getD_eq_getElem _ _ hrm, List.getD_eq_getElem _ _ hr]
  unfold ampMask
  rw [List.getElem_map]

/-- The scalar amplitude gate: np.isclose(a, 0.0, rtol=1e-5, atol=1e-3)
holds exactly when the amplitude magnitude is within 1e-3 of zero. -/
theorem isclose_zero_iff (a : ℚ) :
    isclose a 0 (1/100000) (1/1000) = true ↔ |a| ≤ 1/1000 := by
  unfold isclose
  rw [decide_eq_true_iff]
  constructor
  · intro h
    calc |a| = |a - 0| := by rw [sub_zero]
    _ ≤ 1/1000 + 1/100000 * |(0 : ℚ)| := h
    _ = 1/1000 := by norm_num
  · intro h
    calc |a - 0| = |a| := by rw [sub_zero]
    _ ≤ 1/1000 := h
    _ = 1/1000 + 1/100000 * |(0 : ℚ)| := by norm_num

/-- C5: in the mosaicked output, a pixel whose amplitude magnitude is
within the absolute tolerance 1e-3 of zero becomes NaN in both the
amplitude layer and the corrected-phase layer, and every other pixel is
passed through unmodified in both layers; the mask is evaluated
independently at each output pixel. -/
theorem claim_C5_amplitude_masking (amp unw : List (List ℚ)) (r j : ℕ)
    (hr : r < amp.length) (hru : r < unw.length)
    (hj : j < (amp.getD r []).length) (hju : j < (unw.getD r []).length) :
    ((|(amp.getD r []).getD j 0| ≤ 1/1000) →
      ((whereMask (ampMask amp) unw).getD r []).getD j none = none ∧
      ((whereMask (ampMask amp) amp).getD r []).getD j none = none) ∧
    (¬(|(amp.getD r []).getD j 0| ≤ 1/1000) →
      ((whereMask (ampMask amp) unw).getD r []).getD j none
          = some ((unw.getD r []).getD j 0) ∧
      ((whereMask (ampMask amp) amp).getD r []).getD j none
          = some ((amp.getD r []).getD j 0)) := by
  have hrm : r < (ampMask amp).length := by
    unfold ampMask; rw [List.length_map]; exact hr
  have erow := ampMask_row amp r hr
  have hjm : j < ((ampMask amp).getD r []).length := by
    rw [erow, List.length_map]; exact hj
  have emj : ((ampMask amp).getD r []).getD j false
      = !(isclose ((amp.getD r []).getD j 0) 0 (1/100000) (1/1000)) := by
    rw [erow]
    have hjj : j < ((amp.getD r []).map
        (fun a => !(isclose a 0 (1/100000) (1/1000)))).length := by
      rw [List.length_map]; exact hj
    rw [List.getD_eq_getElem _ _ hjj, List.getElem_map, List.getD_eq_getElem _ _ hj]
  have w1 := whereMask_getD (ampMask amp) unw r j hrm hru hjm hju
  have w2 := whereMask_getD (ampMask amp) amp r j hrm hr hjm hj
  rw [emj] at w1 w2
  constructor
  · intro hle
    have hcl : isclose ((amp.getD r []).getD j 0) 0 (1/100000) (1/1000) = true :=
      (isclose_zero_iff _).mpr hle
    rw [hcl] at w1 w2
    simp only [Bool.not_true, if_false] at w1 w2
    exact ⟨w1, w2⟩
  · intro hgt
    have hcl : isclose ((amp.getD r []).getD j 0) 0 (1/100000) (1/1000) = false := by
      rcases Bool.eq_false_or_eq_true (isclose ((amp.getD r []).getD j 0) 0 (1/100000) (1/1000))
        with ht | hf
      · exact absurd ((isclose_zero_iff _).mp ht) hgt
      · exact hf
    rw [hcl] at w1 w2
    simp only [Bool.not_false, if_true] at w1 w2
    exact ⟨w1, w2⟩

/-- Numeric facts for the C5 witness amplitudes 1e-4 and 0.1. -/
theorem amp_small_le : |(1/10000 : ℚ)| ≤ 1/1000 := by
  rw [abs_of_nonneg (by norm_num)]
  norm_num

theorem amp_big_gt : ¬(|(1/10 : ℚ)| ≤ 1/1000) := by
  rw [abs_of_nonneg (by norm_num)]
  norm_num

/-- C5 witness: in a 1x2 mosaic with amplitudes [1e-4, 0.1] and phases
[5, 7], the first output phase pixel is NaN and the second passes
through as 7. -/
theorem claim_C5_witness :
    ((whereMask (ampMask [[1/10000, 1/10]]) [[5, 7]]).getD 0 []).getD 0 none = none ∧
    ((whereMask (ampMask [[1/10000, 1/10]]) [[5, 7]]).getD 0 []).getD 1 none
      = some 7 := by
  constructor
  · exact ((claim_C5_amplitude_masking [[1/10000, 1/10]] [[5, 7]] 0 0
      (by decide) (by decide) (by decide) (by decide)).1 amp_small_le).1
  · exact ((claim_C5_amplitude_masking [[1/10000, 1/10]] [[5, 7]] 0 1
      (by decide) (by decide) (by decide) (by decide)).2 amp_big_gt).1

/-- Correcting with an all-zero offset list is the identity on the
segment list: subtracting 0 * 2pi changes no pixel. -/
theorem phi_corr_replicate_zero (l : List (List (List ℚ))) :
    phi_corr l (List.replicate l.length 0) = l := by
  induction l with
  | nil => rfl
  | cons x xs ih =>
    unfold phi_corr at ih
    unfold phi_corr
    simp only [List.length_cons, List.replicate_succ, List.zip_cons_cons, List.map_cons,
      List.cons.injEq]
    refine ⟨?_, ih⟩
    simp

/-- Inversion for np.vstack: a successful vstack is the row-axis
concatenation of its inputs. -/
theorem vstackChecked_ok {l : List (List (List ℚ))} {m : List (List ℚ)}
    (h : vstackChecked l = Except.ok m) : m = l.flatten := by
  unfold vstackChecked at h
  by_cases hw : sameWidths l = true
  · rw [if_pos hw] at h
    exact (Except.ok.inj h).symm
  · rw [if_neg hw] at h
    exact absurd h (by intro hc; exact Except.noConfusion hc)

/-- C6: when every absolute segment offset is zero, the phase-correction
step is a no-op and the mosaic is the plain row-axis concatenation of the
input segments in input order: rows 0..len(s1)-1 of the mosaic are
segment 1's rows and row len(s1)+r is row r of segment 2 — a hard cut
with no blending and no inserted or dropped rows. -/
theorem claim_C6_zero_offsets_round_trip (s1 s2 : List (List ℚ))
    (rest : List (List (List ℚ))) :
    phi_corr (s1 :: s2 :: rest) (List.replicate (s1 :: s2 :: rest).length 0)
      = s1 :: s2 :: rest ∧
    vstackChecked (phi_corr (s1 :: s2 :: rest) (List.replicate (s1 :: s2 :: rest).length 0))
      = vstackChecked (s1 :: s2 :: rest) ∧
    ∀ mos, vstackChecked (s1 :: s2 :: rest) = Except.ok mos →
      (∀ r, r < s1.length → mos[r]? = s1[r]?) ∧
      (∀ r, r < s2.length → mos[s1.length + r]? = s2[r]?) := by
  have h1 := phi_corr_replicate_zero (s1 :: s2 :: rest)
  refine ⟨h1, by rw [h1], ?_⟩
  intro mos hmos
  have hm : mos = (s1 :: s2 :: rest).flatten := vstackChecked_ok hmos
  subst hm
  constructor
  · intro r hrl
    rw [List.flatten_cons, List.getElem?_append_left hrl]
  · intro r hr2
    rw [List.flatten_cons, List.getElem?_append_right (Nat.le_add_right _ _),
      Nat.add_sub_cancel_left, List.flatten_cons, List.getElem?_append_left hr2]

/-- C6 witness: two 1x1 segments [[1]] and [[2]] with zero offsets: the
corrected mosaic equals the plain concatenation, and the mosaic row after
segment 1's single row is segment 2's first row. -/
theorem claim_C6_witness :
    vstackChecked (phi_corr [[[(1 : ℚ)]], [[2]]]
        (List.replicate ([[[(1 : ℚ)]], [[2]]] : List (List (List ℚ))).length 0))
      = vstackChecked [[[(1 : ℚ)]], [[2]]] ∧
    ([[(1 : ℚ)], [2]] : List (List ℚ))[1]? = some [2] := by
  constructor
  · exact (claim_C6_zero_offsets_round_trip [[1]] [[2]] []).2.1
  · have h := ((claim_C6_zero_offsets_round_trip [[1]] [[2]] []).2.2 [[1], [2]]
      (by decide)).2 0 (by decide)
    exact h

/-- C7: every cycle offset the system produces is an integer: a
successful estimate_segment_offsets run yields the integer fold
[0, -n12, -n12 - n23, -n12 - n23 - n34] of the three integer pairwise
boundary offsets, and the phase correction applied to every in-bounds
pixel of every segment is exactly c(i) * 2pi for that integer c(i): an
exact whole-number multiple of 2pi. -/
theorem claim_C7_integer_cycle_offsets
    (phi_list coh_list : List (List (List ℚ))) (offs : List ℤ)
    (h : estimate_segment_offsets phi_list coh_list = Except.ok offs) :
    (∃ n12 n23 n34 : ℤ, offs = [0, -n12, -n12 - n23, -n12 - n23 - n34]) ∧
    ∀ i r j, i < phi_list.length → i < offs.length →
      r < (phi_list.getD i []).length →
      j < ((phi_list.getD i []).getD r []).length →
      (((phi_list.getD i []).getD r []).getD j 0)
        - ((((phi_corr phi_list offs).getD i []).getD r []).getD j 0)
        = ((offs.getD i 0 : ℤ) : ℚ) * twoPi := by
  constructor
  · unfold estimate_segment_offsets at h
    obtain ⟨p1, _, h⟩ := except_bind_inv h
    obtain ⟨q1, _, h⟩ := except_bind_inv h
    obtain ⟨p2, _, h⟩ := except_bind_inv h
    obtain ⟨q2, _, h⟩ := except_bind_inv h
    obtain ⟨n12, _, h⟩ := except_bind_inv h
    obtain ⟨p2b, _, h⟩ := except_bind_inv h
    obtain ⟨q2b, _, h⟩ := except_bind_inv h
    obtain ⟨p3, _, h⟩ := except_bind_inv h
    obtain ⟨q3, _, h⟩ := except_bind_inv h
    obtain ⟨n23, _, h⟩ := except_bind_inv h
    obtain ⟨p3b, _, h⟩ := except_bind_inv h
    obtain ⟨q3b, _, h⟩ := except_bind_inv h
    obtain ⟨p4, _, h⟩ := except_bind_inv h
    obtain ⟨q4, _, h⟩ := except_bind_inv h
    obtain ⟨n34, _, h⟩ := except_bind_inv h
    have he := Except.ok.inj h
    refine ⟨n12, n23, n34, ?_⟩
    rw [← he]
    simp [zero_sub]
  · intro i r j hi hic hr hj
    rw [phi_corr_getD phi_list offs i r j hi hic hr hj]
    ring

/-- C7 witness: on the four concrete 1x1 segments with pairwise offsets
1, -2, 0 the run returns the integer offsets [0, -1, 1, 1] and the
correction applied to segment 1's single pixel is exactly 0 * 2pi. -/
theorem claim_C7_witness :
    ((([[[twoPi]], [[0]], [[2 * twoPi]], [[2 * twoPi]]] : List (List (List ℚ))).getD 0
        []).getD 0 []).getD 0 0
      - (((phi_corr [[[twoPi]], [[0]], [[2 * twoPi]], [[2 * twoPi]]]
            [0, -1, 1, 1]).getD 0 []).getD 0 []).getD 0 0
      = ((([0, -1, 1, 1].getD 0 0 : ℤ) : ℚ)) * twoPi := by
  have hfold := offsets_fold_aux [[twoPi]] [[0]] [[2 * twoPi]] [[2 * twoPi]]
    [[9/10]] [[9/10]] [[9/10]] [[9/10]] 1 (-2) 0
    (boundary_single twoPi 0 1 (by simp))
    (boundary_single 0 (2 * twoPi) (-2) (by push_cast; ring))
    (boundary_single (2 * twoPi) (2 * twoPi) 0 (by simp))
  exact (claim_C7_integer_cycle_offsets [[[twoPi]], [[0]], [[2 * twoPi]], [[2 * twoPi]]]
    [[[9/10]], [[9/10]], [[9/10]], [[9/10]]] [0, -1, 1, 1]
    (hfold.trans (by decide))).2 0 0 0
    (by decide) (by decide) (by decide) (by decide)

/-- Indexing a row-axis concatenation: row rowStart(i) + r of the flatten
is row r of segment i. -/
theorem flatten_row_getElem {α : Type} (L : List (List α)) (i r : ℕ)
    (hi : i < L.length) (hr : r < (L.getD i []).length) :
    L.flatten[rowStart L i + r]? = (L.getD i [])[r]? := by
  induction L generalizing i with
  | nil => exact absurd hi (by simp)
  | cons x xs ih =>
    cases i with
    | zero =>
      have e : rowStart (x :: xs) 0 = 0 := rfl
      have ed : (x :: xs).getD 0 [] = x := rfl
      rw [e, Nat.zero_add, List.flatten_cons, ed]
      rw [ed] at hr
      rw [List.getElem?_append_left hr]
    | succ n =>
      have e : rowStart (x :: xs) (n + 1) = x.length + rowStart xs n := by
        unfold rowStart
        rw [List.take_succ_cons, List.map_cons, List.sum_cons]
      have ed : (x :: xs).getD (n + 1) [] = xs.getD n [] := rfl
      rw [ed] at hr
      have hi2 : n < xs.length := by
        rw [List.length_cons] at hi
        omega
      rw [e, ed, List.flatten_cons, Nat.add_assoc,
        List.getElem?_append_right (Nat.le_add_right _ _),
        Nat.add_sub_cancel_left]
      exact ih n hi2 hr

/-- Getting one band of the per-band concatenation np.concatenate(segs,
axis=1). -/
theorem concatAxis1_band (los : List (List (List (List ℚ)))) (b : ℕ)
    (hb : b < (los.headD []).length) :
    (concatAxis1 los).getD b [] = (los.map (fun s => s.getD b [])).flatten := by
  unfold concatAxis1
  have hbl : b < ((List.range (los.headD []).length).map
      (fun b => (los.map (fun s => s.getD b [])).flatten)).length := by
    rw [List.length_map, List.length_range]
    exact hb
  rw [List.getD_eq_getElem _ _ hbl, List.getElem_map, List.getElem_range]

/-- C8: the auxiliary single-band layers (coherence, connected-component
labels, height, latitude, longitude, shadow mask) are mosaicked by plain
np.vstack, and the two-band line-of-sight layer by np.concatenate along
the row axis: in both cases every output pixel equals the corresponding
input pixel of its segment, in input segment order, with no per-pixel
correction — the 2pi correction exists only in the unwrapped-phase path. -/
theorem claim_C8_aux_layers_uncorrected
    (segs : List (List (List ℚ))) (mos : List (List ℚ))
    (h : vstackChecked segs = Except.ok mos)
    (los : List (List (List (List ℚ))))
    (i r : ℕ) (hi : i < segs.length) (hr : r < (segs.getD i []).length)
    (b i2 r2 : ℕ) (hb : b < (los.headD []).length) (hi2 : i2 < los.length)
    (hr2 : r2 < ((los.getD i2 []).getD b []).length) :
    mos[rowStart segs i + r]? = (segs.getD i [])[r]? ∧
    ((concatAxis1 los).getD b [])[rowStart (los.map (fun s => s.getD b [])) i2 + r2]?
      = ((los.getD i2 []).getD b [])[r2]? := by
  constructor
  · rw [vstackChecked_ok h]
    exact flatten_row_getElem segs i r hi hr
  · rw [concatAxis1_band los b hb]
    have hi2m : i2 < (los.map (fun s => s.getD b [])).length := by
      rw [List.length_map]
      exact hi2
    have egd : (los.map (fun s => s.getD b [])).getD i2 []
        = (los.getD i2 []).getD b [] := by
      rw [List.getD_eq_getElem _ _ hi2m, List.getElem_map,
        List.getD_eq_getElem _ _ hi2]
    have hr2m : r2 < ((los.map (fun s => s.getD b [])).getD i2 []).length := by
      rw [egd]
      exact hr2
    rw [flatten_row_getElem (los.map (fun s => s.getD b [])) i2 r2 hi2m hr2m, egd]

/-- C8 witness: two 1x1 height segments [[1]] and [[2]] vstack to
[[1], [2]] with segment 2's pixel unchanged at mosaic row 1, and a
single two-band 1x1 line-of-sight segment passes its band-0 pixel
through unchanged. -/
theorem claim_C8_witness :
    ([[(1 : ℚ)], [2]] : List (List ℚ))[rowStart [[[(1 : ℚ)]], [[2]]] 1 + 0]?
      = (([[[(1 : ℚ)]], [[2]]] : List (List (List ℚ))).getD 1 [])[0]? ∧
    ((concatAxis1 [[[[5]], [[6]]]]).getD 0 [])[rowStart
        (([[[[(5 : ℚ)]], [[6]]]] : List (List (List (List ℚ)))).map
          (fun s => s.getD 0 [])) 0 + 0]?
      = ((([[[[(5 : ℚ)]], [[6]]]] : List (List (List (List ℚ)))).getD 0 []).getD 0
          [])[0]? :=
  claim_C8_aux_layers_uncorrected [[[1]], [[2]]] [[1], [2]] (by decide)
    [[[[5]], [[6]]]] 1 0 (by decide) (by decide) 0 0 0
    (by decide) (by decide) (by decide)

/-- A trace consisting of writes followed by one fatal event: the fatal
is terminal and everything before it is a completed-product write. -/
theorem fatal_terminal_shape (ws : List String) (e0 e : String)
    (he : Ev.fatal e ∈ ws.map Ev.write ++ [Ev.fatal e0]) :
    ∃ pre, ws.map Ev.write ++ [Ev.fatal e0] = pre ++ [Ev.fatal e] ∧
      ∀ ev ∈ pre, ∃ s, ev = Ev.write s := by
  have he0 : e = e0 := by
    rcases List.mem_append.mp he with hw | hf
    · obtain ⟨s, _, hs⟩ := List.mem_map.mp hw
      exact absurd hs (by intro hc; exact Ev.noConfusion hc)
    · rw [List.mem_singleton] at hf
      injection hf with h1
  subst he0
  refine ⟨ws.map Ev.write, rfl, ?_⟩
  intro ev hev
  obtain ⟨s, _, hs⟩ := List.mem_map.mp hev
  exact ⟨s, hs.symm⟩

/-- C9: atomicity of the per-pair mosaic pass on fatal errors. Whatever
the inputs, (a) any fatal exception is the last event of the pass and
everything before it is the write of an already fully computed product —
in particular nothing at all of the affected product is emitted after
the failure is surfaced; (b) an undefined boundary offset (or any other
failure inside estimate_segment_offsets) aborts the pass before any
output raster is written; (c) the phase mosaic is only ever written
after offset estimation has succeeded. -/
theorem claim_C9_fatal_atomicity
    (phi_list int_amp_list coh_list conncomp_list : List (List (List ℚ))) :
    (∀ e, Ev.fatal e ∈ process_pair phi_list int_amp_list coh_list conncomp_list →
      ∃ pre, process_pair phi_list int_amp_list coh_list conncomp_list
          = pre ++ [Ev.fatal e] ∧ ∀ ev ∈ pre, ∃ s, ev = Ev.write s) ∧
    (∀ e, estimate_segment_offsets phi_list coh_list = Except.error e →
      process_pair phi_list int_amp_list coh_list conncomp_list = [Ev.fatal e]) ∧
    (Ev.write "filt_snaphu.unw" ∈ process_pair phi_list int_amp_list coh_list conncomp_list →
      ∃ cs, estimate_segment_offsets phi_list coh_list = Except.ok cs) := by
  cases h1 : estimate_segment_offsets phi_list coh_list with
  | error e1 =>
    have htr : process_pair phi_list int_amp_list coh_list conncomp_list
        = [Ev.fatal e1] := by
      simp only [process_pair, h1]
    refine ⟨?_, ?_, ?_⟩
    · intro e he
      rw [htr] at he ⊢
      exact fatal_terminal_shape [] e1 e he
    · intro e he
      injection he with hx
      subst hx
      exact htr
    · intro hw
      rw [htr, List.mem_singleton] at hw
      exact absurd hw (by intro hc; exact Ev.noConfusion hc)
  | ok cs =>
    cases h2 : vstackChecked (phi_corr phi_list cs) with
    | error e2 =>
      have htr : process_pair phi_list int_amp_list coh_list conncomp_list
          = [Ev.fatal e2] := by
        simp only [process_pair, h1, h2]
      refine ⟨?_, fun e he => absurd he (by intro hc; exact Except.noConfusion hc), ?_⟩
      · intro e he
        rw [htr] at he ⊢
        exact fatal_terminal_shape [] e2 e he
      · intro hw
        rw [htr, List.mem_singleton] at hw
        exact absurd hw (by intro hc; exact Ev.noConfusion hc)
    | ok mosaic_unw =>
      cases h3 : vstackChecked int_amp_list with
      | error e3 =>
        have htr : process_pair phi_list int_amp_list coh_list conncomp_list
            = [Ev.fatal e3] := by
          simp only [process_pair, h1, h2, h3]
        refine ⟨?_, fun e he => absurd he (by intro hc; exact Except.noConfusion hc), ?_⟩
        · intro e he
          rw [htr] at he ⊢
          exact fatal_terminal_shape [] e3 e he
        · intro hw
          rw [htr, List.mem_singleton] at hw
          exact absurd hw (by intro hc; exact Ev.noConfusion hc)
      | ok mosaic_int_amp =>
        cases h4 : whereChecked (ampMask mosaic_int_amp) mosaic_unw with
        | error e4 =>
          have htr : process_pair phi_list int_amp_list coh_list conncomp_list
              = [Ev.fatal e4] := by
            simp only [process_pair, h1, h2, h3, h4]
          refine ⟨?_, fun e he => absurd he (by intro hc; exact Except.noConfusion hc), ?_⟩
          · intro e he
            rw [htr] at he ⊢
            exact fatal_terminal_shape [] e4 e he
          · intro hw
            rw [htr, List.mem_singleton] at hw
            exact absurd hw (by intro hc; exact Ev.noConfusion hc)
        | ok unw_masked =>
          cases h5 : whereChecked (ampMask mosaic_int_amp) mosaic_int_amp with
          | error e5 =>
            have htr : process_pair phi_list int_amp_list coh_list conncomp_list
                = [Ev.fatal e5] := by
              simp only [process_pair, h1, h2, h3, h4, h5]
            refine ⟨?_, fun e he => absurd he (by intro hc; exact Except.noConfusion hc), ?_⟩
            · intro e he
              rw [htr] at he ⊢
              exact fatal_terminal_shape [] e5 e he
            · intro hw
              rw [htr, List.mem_singleton] at hw
              exact absurd hw (by intro hc; exact Ev.noConfusion hc)
          | ok amp_masked =>
            cases h6 : stack2Checked amp_masked unw_masked with
            | error e6 =>
              have htr : process_pair phi_list int_amp_list coh_list conncomp_list
                  = [Ev.fatal e6] := by
                simp only [process_pair, h1, h2, h3, h4, h5, h6]
              refine ⟨?_, fun e he => absurd he (by intro hc; exact Except.noConfusion hc), ?_⟩
              · intro e he
                rw [htr] at he ⊢
                exact fatal_terminal_shape [] e6 e he
              · intro hw
                rw [htr, List.mem_singleton] at hw
                exact absurd hw (by intro hc; exact Ev.noConfusion hc)
            | ok _twoband =>
              cases h7 : vstackChecked coh_list with
              | error e7 =>
                have htr : process_pair phi_list int_amp_list coh_list conncomp_list
                    = [Ev.write "filt_snaphu.unw", Ev.fatal e7] := by
                  simp only [process_pair, h1, h2, h3, h4, h5, h6, h7]
                refine ⟨?_,
                  fun e he => absurd he (by intro hc; exact Except.noConfusion hc),
                  fun _ => ⟨cs, rfl⟩⟩
                intro e he
                rw [htr] at he ⊢
                exact fatal_terminal_shape ["filt_snaphu.unw"] e7 e he
              | ok _mosaic_coh =>
                cases h8 : vstackChecked conncomp_list with
                | error e8 =>
                  have htr : process_pair phi_list int_amp_list coh_list conncomp_list
                      = [Ev.write "filt_snaphu.unw", Ev.write "filt.cor",
                          Ev.fatal e8] := by
                    simp only [process_pair, h1, h2, h3, h4, h5, h6, h7, h8]
                  refine ⟨?_,
                    fun e he => absurd he (by intro hc; exact Except.noConfusion hc),
                    fun _ => ⟨cs, rfl⟩⟩
                  intro e he
                  rw [htr] at he ⊢
                  exact fatal_terminal_shape ["filt_snaphu.unw", "filt.cor"] e8 e he
                | ok _mosaic_conncomp =>
                  have htr : process_pair phi_list int_amp_list coh_list conncomp_list
                      = [Ev.write "filt_snaphu.unw", Ev.write "filt.cor",
                          Ev.write "filt_snaphu.unw.conncomp"] := by
                    simp only [process_pair, h1, h2, h3, h4, h5, h6, h7, h8]
                  refine ⟨?_,
                    fun e he => absurd he (by intro hc; exact Except.noConfusion hc),
                    fun _ => ⟨cs, rfl⟩⟩
                  intro e he
                  rw [htr] at he
                  simp at he

/-- Evaluation of the boundary estimator on 1x1 segments whose coherence
cv does not exceed the threshold: no pixel passes the gate and the
NaN-to-int conversion error is raised. -/
theorem boundary_nan_single (a b cv : ℚ) (hcv : ¬((7/10 : ℚ) < cv)) :
    estimate_boundary_n [[a]] [[cv]] [[b]] [[cv]] 400 400 (7/10)
      = Except.error "cannot convert float NaN to integer" := by
  have hq : ∀ q ∈ pixelPairs (sliceTail 400 400 [[cv]]) (sliceHead 400 400 [[cv]]),
      ¬((7/10 : ℚ) < q.1 ∧ (7/10 : ℚ) < q.2) := by
    intro q hqm
    have e : pixelPairs (sliceTail 400 400 [[cv]]) (sliceHead 400 400 [[cv]])
        = [(cv, cv)] := rfl
    rw [e, List.mem_singleton] at hqm
    subst hqm
    intro hc
    exact hcv hc.1
  have hnil := validDiffs_nil (sliceTail 400 400 [[a]]) (sliceHead 400 400 [[b]]) hq
  simp [estimate_boundary_n, hnil]

/-- C9 witness: with coherence 0 everywhere, the first boundary offset is
undefined, estimate_segment_offsets raises, and the per-pair pass emits
no output write at all — its trace is exactly the fatal event. -/
theorem claim_C9_witness :
    process_pair [[[1]], [[1]], [[1]], [[1]]] [[[1]], [[1]], [[1]], [[1]]]
        [[[0]], [[0]], [[0]], [[0]]] [[[1]], [[1]], [[1]], [[1]]]
      = [Ev.fatal "cannot convert float NaN to integer"] := by
  have hb := boundary_nan_single 1 1 0 (by norm_num)
  have g0 : getSeg [[[(1 : ℚ)]], [[1]], [[1]], [[1]]] 0 = Except.ok [[1]] := rfl
  have k0 : getSeg [[[(0 : ℚ)]], [[0]], [[0]], [[0]]] 0 = Except.ok [[0]] := rfl
  have g1 : getSeg [[[(1 : ℚ)]], [[1]], [[1]], [[1]]] 1 = Except.ok [[1]] := rfl
  have k1 : getSeg [[[(0 : ℚ)]], [[0]], [[0]], [[0]]] 1 = Except.ok [[0]] := rfl
  have hest : estimate_segment_offsets [[[1]], [[1]], [[1]], [[1]]]
      [[[0]], [[0]], [[0]], [[0]]]
      = Except.error "cannot convert float NaN to integer" := by
    simp only [estimate_segment_offsets, g0, k0, g1, k1, hb,
      except_bind_ok, except_bind_err]
  exact (claim_C9_fatal_atomicity [[[1]], [[1]], [[1]], [[1]]]
    [[[1]], [[1]], [[1]], [[1]]] [[[0]], [[0]], [[0]], [[0]]]
    [[[1]], [[1]], [[1]], [[1]]]).2.1 "cannot convert float NaN to integer" hest

/-- C10: the array that write_isce_image dumps to disk is always tagged
float32, whatever the dtype of the 2-D or 3-D input array — integer-like
inputs such as the connected-component label mosaic and the shadow-mask
mosaic are therefore stored as float32. -/
theorem claim_C10_output_is_float32 (t : TypedArr) (scheme : String) (out : TypedArr)
    (h : write_isce_image t scheme = Except.ok out) :
    out.dtype = DType.float32 := by
  unfold write_isce_image at h
  split at h
  · have he := Except.ok.inj h
    rw [← he]
  · split at h
    · have he := Except.ok.inj h
      rw [← he]
    · split at h
      · have he := Except.ok.inj h
        rw [← he]
      · exact absurd h (by intro hc; exact Except.noConfusion hc)
  · exact absurd h (by intro hc; exact Except.noConfusion hc)

/-- C10 witness: an int32-tagged 2-D label array is written out tagged
float32. -/
theorem claim_C10_witness :
    (⟨DType.float32, NDArr.d2 [[1, 2]]⟩ : TypedArr).dtype = DType.float32 :=
  claim_C10_output_is_float32 ⟨DType.int32, NDArr.d2 [[1, 2]]⟩ "BIL"
    ⟨DType.float32, NDArr.d2 [[1, 2]]⟩ rfl

end SARMerge
